import Mathlib

/-!
Verification of the L+D Turkey Labeler pipeline (`src/app.py`, with
`src/l_d_turkey_labeler_app.py` a near-duplicate): UPC barcode
normalization, label rendering with token substitution, scale reading and
parsing, printer transports, and the orchestrator's net-weight and price
computations.

Python strings are modelled as `List Char` (wrapped in `String` at the
boundaries).  Python floats are modelled as exact rationals (`Rat`); the
binary floating-point representation is abstracted away.  I/O devices
(serial ports, sockets, the filesystem) are modelled by explicit behaviour
records, and Python exceptions by `Except` values; a function that
catches all exceptions is total, and one that can let an exception escape
returns an `Outcome` marking the raise.
-/

set_option autoImplicit false

namespace TurkeyLabeler

/-! ### Python string primitives -/

/-- Python `str.strip()`: drop leading and trailing whitespace.
(Python strips a slightly larger Unicode whitespace class; the claims only
involve ASCII whitespace, covered by `Char.isWhitespace`.) -/
def pyStrip (l : List Char) : List Char :=
  ((l.dropWhile Char.isWhitespace).reverse.dropWhile Char.isWhitespace).reverse

/-- Python `str.zfill(width)`: left-pad with `'0'` to `width` characters;
a leading `'+'`/`'-'` sign stays in front of the inserted zeros. -/
def zfill (l : List Char) (width : Nat) : List Char :=
  if width ≤ l.length then l
  else
    match l with
    | [] => List.replicate width '0'
    | c :: cs =>
      if c = '+' ∨ c = '-' then c :: (List.replicate (width - l.length) '0' ++ cs)
      else List.replicate (width - l.length) '0' ++ (c :: cs)

/-- Python `pat in l` (substring containment). -/
def containsSub (pat : List Char) : List Char → Bool
  | [] => pat.isEmpty
  | c :: cs => pat.isPrefixOf (c :: cs) || containsSub pat cs

/-- Fuelled worker for `pyReplace`; the fuel is an upper bound on the number
of recursion steps (each step consumes at least one character when the
pattern is nonempty), kept structural so the kernel can evaluate it. -/
def replaceFuel (pat rep : List Char) : Nat → List Char → List Char
  | _, [] => []
  | 0, l => l
  | Nat.succ fuel, c :: cs =>
    if pat.isPrefixOf (c :: cs) then rep ++ replaceFuel pat rep fuel ((c :: cs).drop pat.length)
    else c :: replaceFuel pat rep fuel cs

/-- Python `l.replace(pat, rep)`: replace every non-overlapping occurrence of
`pat`, scanning left to right.  The renderer only ever calls this with a
nonempty pattern (`\x7b\x7bKEY\x7d\x7d` has at least four characters), so the
empty-pattern case (where Python would interleave `rep` everywhere) is mapped
to the identity. -/
def pyReplace (pat rep l : List Char) : List Char :=
  if pat.isEmpty then l else replaceFuel pat rep l.length l

/-- Python `text.split('\n')`. -/
def splitNl : List Char → List (List Char)
  | [] => [[]]
  | c :: cs =>
    if c = '\n' then [] :: splitNl cs
    else
      match splitNl cs with
      | [] => [[c]]
      | l :: ls => (c :: l) :: ls

/-! ### Barcode generation (`generate_upc_barcode`, src/app.py lines 189-202) -/

/-- The normalization step of `generate_upc_barcode` (lines 191-199):
strip, then pass 11- and 12-character inputs through, left-zero-fill
shorter ones to 11 characters, and keep the last 12 characters of longer
ones (`upc_digits[-12:]`). -/
def normalizeUpcChars (l : List Char) : List Char :=
  let d := pyStrip l
  if d.length = 11 then d
  else if d.length = 12 then d
  else if d.length < 11 then zfill d 11
  else d.drop (d.length - 12)

/-- `normalizeUpcChars` on `String`s. -/
def normalizeUpc (s : String) : String :=
  String.mk (normalizeUpcChars s.data)

/-- Python `l[::2]`: the elements at indices 0, 2, 4, … -/
def everyOther : List Char → List Char
  | [] => []
  | [c] => [c]
  | c :: _ :: cs => c :: everyOther cs

/-- The digit value of a character, as `int(x)` reads a digit. -/
def digitVal (c : Char) : Nat := c.toNat - '0'.toNat

/-- UPC-A check digit of an 11-digit code, as python-barcode computes it:
`oddsum` is the digit sum over `upc[::2]`, `evensum` over `upc[1::2]`,
`check = (evensum + oddsum * 3) % 10`, and the digit is `0` when `check`
is `0`, else `10 - check`. -/
def upcaChecksum (l : List Char) : Nat :=
  let oddsum := (everyOther l).foldl (fun n c => n + digitVal c) 0
  let evensum := (everyOther (l.drop 1)).foldl (fun n c => n + digitVal c) 0
  let check := (evensum + oddsum * 3) % 10
  if check = 0 then 0 else 10 - check

/-- Python `str.isdigit()` restricted to ASCII digits (`""` is not a digit
string). -/
def pyIsdigit (l : List Char) : Bool :=
  !l.isEmpty && l.all Char.isDigit

/-- `generate_upc_barcode` (src/app.py lines 189-202): normalize the UPC and
hand it to python-barcode's UPC-A class.  The library keeps the first 11
characters (`upc[:self.digits]`), raises `IllegalCharacterError` unless they
are all digits, raises `NumberOfDigitsError` unless there are exactly 11 of
them, appends the computed check digit, and renders the resulting 12-digit
code to an image file.  `.ok code` stands for the successfully written
barcode image of `code`; `.error e` for the exception `e` escaping. -/
def generate_upc_barcode (upc : String) : Except String String :=
  let d := normalizeUpcChars upc.data
  let first11 := d.take 11
  if !pyIsdigit first11 then .error "IllegalCharacterError"
  else if first11.length ≠ 11 then .error "NumberOfDigitsError"
  else .ok (String.mk (first11 ++ [Char.ofNat ('0'.toNat + upcaChecksum first11)]))

/-! ### Label rendering (`render_label_as_image`, src/app.py lines 205-259) -/

/-- A drawing operation on the label canvas.  The composed image is the
fixed-size white canvas with these operations applied in order, so renders
that produce the same operation list produce the same image.  `pasteLogo`
pastes the 80×80-thumbnailed image at `path` at the fixed offset (10, 10);
`pasteBarcode` pastes the 180×60-thumbnailed barcode image of the 12-digit
`code` at `(x, y)`; `drawText` draws a text line at `(x, y)`. -/
inductive Op
  | pasteLogo (path : String)
  | drawText (x y : Nat) (text : String)
  | pasteBarcode (x y : Nat) (code : String)
  deriving DecidableEq, Repr

/-- The ambient filesystem as the renderer consults it: `os.path.isfile`, and
whether `Image.open`/`thumbnail`/`paste` succeed on the path. -/
structure Fs where
  isFile : String → Bool
  opensAsImage : String → Bool

/-- Python `str(v)` on a token-map value (`None` or a string). -/
def pyStr : Option String → String
  | none => "None"
  | some s => s

/-- `values.get('UPC') or ''` (line 242): `None`, a missing key, and `""` all
yield `""`. -/
def getUpcValue (values : List (String × Option String)) : String :=
  match List.lookup "UPC" values with
  | some (some s) => s
  | _ => ""

/-- The token text for key `k`: two opening braces, then `k`, then two
closing braces. -/
def tokenOf (k : String) : List Char :=
  '{' :: '{' :: (k.data ++ ['}', '}'])

/-- The special barcode marker: the token text for `UPC_BARCODE`. -/
def upcMarker : List Char :=
  tokenOf "UPC_BARCODE"

/-- The token-substitution loop over one line (lines 235-238): for each map
entry in order, if its token occurs in the line, replace every occurrence
with `str(value)`. -/
def substLine (values : List (String × Option String)) (line : List Char) : List Char :=
  values.foldl
    (fun l kv =>
      if containsSub (tokenOf kv.1) l then pyReplace (tokenOf kv.1) (pyStr kv.2).data l else l)
    line

/-- The renderer's cursor position and the operations drawn so far. -/
structure RState where
  y : Nat
  ops : List Op
  deriving DecidableEq, Repr

/-- One iteration of the line loop (lines 233-256).  `bcH` gives the height
of the 180×60-thumbnailed barcode image for a rendered code (an attribute of
the barcode library's raster, not computed by the application).  After token
substitution, a line containing the `UPC_BARCODE` marker pastes the barcode
generated from the `UPC` token's value at `(10, y)` and advances `y` by the
barcode height plus 5; if generation raises, the literal text
`ERR: barcode` is drawn at `(10, y)` instead and `y` advances by 20; any
other line is drawn as text at `(100, y)` and `y` advances by 18. -/
def renderLine (bcH : String → Nat) (values : List (String × Option String))
    (st : RState) (rawLine : List Char) : RState :=
  let line := substLine values rawLine
  if containsSub upcMarker line then
    match generate_upc_barcode (getUpcValue values) with
    | .ok code => ⟨st.y + bcH code + 5, st.ops ++ [Op.pasteBarcode 10 st.y code]⟩
    | .error _ => ⟨st.y + 20, st.ops ++ [Op.drawText 10 st.y "ERR: barcode"]⟩
  else ⟨st.y + 18, st.ops ++ [Op.drawText 100 st.y (String.mk line)]⟩

/-- The line loop folded over a list of lines. -/
def renderLines (bcH : String → Nat) (values : List (String × Option String))
    (st : RState) (ls : List (List Char)) : RState :=
  ls.foldl (renderLine bcH values) st

/-- The logo step (lines 220-229): `values.get('LOGO_PATH')` must be truthy
(`None`, a missing key and `""` are falsy) and name an existing file; the
paste is attempted and any failure inside the `try` is skipped silently. -/
def logoOps (fs : Fs) (values : List (String × Option String)) : List Op :=
  match List.lookup "LOGO_PATH" values with
  | some (some p) =>
    if p ≠ "" && fs.isFile p then
      if fs.opensAsImage p then [Op.pasteLogo p] else []
    else []
  | _ => []

/-- `render_label_as_image` (lines 205-259): white canvas, optional logo,
then the token-substituting line loop from the cursor `y = 10`; the
composed image is the resulting operation list. -/
def render_label_as_image (fs : Fs) (bcH : String → Nat) (template_text : String)
    (values : List (String × Option String)) : List Op :=
  (renderLines bcH values ⟨10, logoOps fs values⟩ (splitNl template_text.data)).ops

/-! ### Scale reading (`GaincoScale.read_weight`, src/app.py lines 296-317)

The pattern searched on line 311 is: an optionally signed decimal
(sign, digits, a dot, digits) or an unsigned run of digits, alternation in
that order, leftmost match.  The matcher below follows the regex engine:
at each position try the signed-decimal alternative first (greedy digit
runs; backtracking cannot rescue a failed alternative here because a
maximal digit run is always followed by a non-digit), then the unsigned
integer alternative, advancing one character on failure. -/

/-- The first alternative without its optional sign: digits, a dot, digits,
both digit runs greedy and nonempty. -/
def matchUnsignedDec (l : List Char) : Option (List Char) :=
  let d1 := l.takeWhile Char.isDigit
  if d1.isEmpty then none
  else
    match l.drop d1.length with
    | '.' :: rest2 =>
      let d2 := rest2.takeWhile Char.isDigit
      if d2.isEmpty then none else some (d1 ++ '.' :: d2)
    | _ => none

/-- The first alternative: an optional sign, then digits, a dot, digits. -/
def matchSignedDec (l : List Char) : Option (List Char) :=
  match l with
  | c :: cs =>
    if c = '-' ∨ c = '+' then (matchUnsignedDec cs).map (c :: ·)
    else matchUnsignedDec (c :: cs)
  | [] => none

/-- The second alternative: an unsigned run of digits (no sign). -/
def matchUInt (l : List Char) : Option (List Char) :=
  let d := l.takeWhile Char.isDigit
  if d.isEmpty then none else some d

/-- The pattern matched at one position: signed decimal, else unsigned
integer. -/
def matchAt (l : List Char) : Option (List Char) :=
  match matchSignedDec l with
  | some m => some m
  | none => matchUInt l

/-- `re.search`: the leftmost position where the pattern matches. -/
def reSearch : List Char → Option (List Char)
  | [] => none
  | c :: cs =>
    match matchAt (c :: cs) with
    | some m => some m
    | none => reSearch cs

/-- The natural number denoted by a digit string. -/
def natOfDigits (l : List Char) : Nat :=
  l.foldl (fun n c => 10 * n + digitVal c) 0

/-- `float(tok)` on an unsigned matched token, as an exact rational. -/
def ratOfUnsignedTok (l : List Char) : Rat :=
  let ip := l.takeWhile Char.isDigit
  match l.drop ip.length with
  | '.' :: fr => (natOfDigits ip : Rat) + (natOfDigits fr : Rat) / ((10 : Rat) ^ fr.length)
  | _ => (natOfDigits ip : Rat)

/-- `float(tok)` on a matched token (Python's binary float value is
modelled as the exact rational the literal denotes). -/
def pyFloat : List Char → Rat
  | '-' :: cs => -(ratOfUnsignedTok cs)
  | '+' :: cs => ratOfUnsignedTok cs
  | l => ratOfUnsignedTok l

/-- Lines 309-315: search the decoded text for the first numeric token;
on a match return `float(m.group(0))` together with the text, otherwise
`None` together with the text (the raw text as diagnostic output). -/
def parseScaleText (text : List Char) : Option Rat × List Char :=
  match reSearch text with
  | some tok => (some (pyFloat tok), text)
  | none => (none, text)

/-- One call's serial-device behaviour: what `SerialDevice.open` and
`readline` do for this read.  An `.error` is the exception the call raises;
`.ok raw` on the read is the returned byte string (bytes are modelled as the
string they decode to — `decode('utf-8', errors='ignore')` never raises,
and only emptiness and the decoded text are consumed). -/
structure SerialBehavior where
  openResult : Except String Unit
  readResult : Except String String

/-- A call's result as the caller sees it: a normal return, or an uncaught
exception of the named kind escaping the call. -/
inductive Outcome (α : Type)
  | ret (v : α)
  | raised (exn : String)
  deriving DecidableEq

/-- `GaincoScale.read_weight` (lines 296-317).  Returns the outcome paired
with whether the serial handle is still open when the call returns.  The
whole body is wrapped in `try ... except Exception as e: return None, str(e)`:
an open failure leaves nothing open; a read failure after a successful
open returns `(None, str(e))` with the port still open (`close` is only
reached on the success path); a successful read closes the port, then an
empty byte string yields `(None, 'No data')` and otherwise the decoded,
stripped text is parsed for its first numeric token. -/
def read_weight (dev : SerialBehavior) : Outcome (Option Rat × String) × Bool :=
  match dev.openResult with
  | .error e => (.ret (none, e), false)
  | .ok _ =>
    match dev.readResult with
    | .error e => (.ret (none, e), true)
    | .ok raw =>
      if raw.isEmpty then (.ret (none, "No data"), false)
      else
        let text := String.mk (pyStrip raw.data)
        (.ret ((parseScaleText text.data).1, text), false)

/-! ### Printer transports (src/app.py lines 263-283) -/

/-- One call's behaviour of the printer's serial port: what `open` and
`write(data_bytes)` do (`SerialDevice.close` never raises: it swallows its
own exceptions). -/
structure PrinterSerialBehavior where
  openResult : Except String Unit
  writeResult : Except String Unit

/-- One call's behaviour of the TCP socket to the printer: what
`connect((ip, 9100))` and `sendall(data_bytes)` do within their timeouts. -/
structure SocketBehavior where
  connectResult : Except String Unit
  sendResult : Except String Unit

/-- The `try` body of `send_to_printer_serial` (open, write, close, return
`(True, 'Sent to serial printer')`); `.error e` is an exception escaping the
body. -/
def serialSendBody (dev : PrinterSerialBehavior) : Except String (Bool × String) :=
  match dev.openResult with
  | .error e => .error e
  | .ok _ =>
    match dev.writeResult with
    | .error e => .error e
    | .ok _ => .ok (true, "Sent to serial printer")

/-- `send_to_printer_serial` (lines 263-271): the body's exception is caught
and returned as `(False, str(e))`; the function always returns a pair. -/
def send_to_printer_serial (dev : PrinterSerialBehavior) : Bool × String :=
  match serialSendBody dev with
  | .ok r => r
  | .error e => (false, e)

/-- The `try` body of `send_to_printer_ip` (socket, settimeout, connect,
sendall, close, return `(True, 'Sent to network printer')`). -/
def ipSendBody (dev : SocketBehavior) : Except String (Bool × String) :=
  match dev.connectResult with
  | .error e => .error e
  | .ok _ =>
    match dev.sendResult with
    | .error e => .error e
    | .ok _ => .ok (true, "Sent to network printer")

/-- `send_to_printer_ip` (lines 274-283): the body's exception is caught and
returned as `(False, str(e))`; the function always returns a pair. -/
def send_to_printer_ip (dev : SocketBehavior) : Bool × String :=
  match ipSendBody dev with
  | .ok r => r
  | .error e => (false, e)

/-! ### Orchestrator: net weight (`App.read_weight`, lines 563-582) and
price (`App.print_label`, lines 594-618) -/

/-- A product row projected to the field the weight path reads: its `tare`
column (`p[5]`), `none` modelling SQL NULL. -/
structure Product where
  tare : Option Rat

/-- Lines 572-577: the tare is `0.0` unless a product is selected, found in
the database, and its tare field is truthy (`p[5] if p[5] else 0.0`). -/
def resolveTare (sel : Option String) (db : String → Option Product) : Rat :=
  match sel with
  | none => 0
  | some code =>
    match db code with
    | none => 0
    | some p =>
      match p.tare with
      | some t => if t ≠ 0 then t else 0
      | none => 0

/-- Lines 578-581: `net = wt - tare; if net < 0: net = 0.0`. -/
def App_read_weight_net (gross : Rat) (sel : Option String)
    (db : String → Option Product) : Rat :=
  let tare := resolveTare sel db
  let net := gross - tare
  if net < 0 then 0 else net

/-- Line 596: `total_price = weight * price_per_lb`. -/
def totalPrice (weight price_per_lb : Rat) : Rat :=
  weight * price_per_lb

/-- Round a rational to the nearest integer, ties to even — the rounding
both of Python's fixed-point float formatting and of Python's `round`
(applied here to the exact value the binary float stands for in this
model). -/
def roundHalfEven (q : Rat) : Int :=
  let f : Int := ⌊q⌋
  let r : Rat := q - (f : Rat)
  if r < 1 / 2 then f
  else if 1 / 2 < r then f + 1
  else if f % 2 = 0 then f else f + 1

/-- The decimal text for an integer number of hundredths: sign, integer
part, a dot, two fraction digits.  (Python renders a negative value rounding
to zero as `-0.00`; that sign on zero is not modelled.) -/
def centsString (c : Int) : String :=
  (if c < 0 then "-" else "") ++ toString (c.natAbs / 100) ++ "." ++
    (if c.natAbs % 100 < 10 then "0" else "") ++ toString (c.natAbs % 100)

/-- The fixed-point format `.2f` applied to `x` (lines 597 and 615): the
value rounded to hundredths, rendered with two fraction digits. -/
def formatF2 (x : Rat) : String :=
  centsString (roundHalfEven (100 * x))

/-- The spec side of C8, from the spec's words: `round(x, 2)` — `x` rounded
to two decimal places. -/
def round2_spec (x : Rat) : Rat :=
  (roundHalfEven (100 * x) : Rat) / 100

/-- The decimal text of a rational that is an exact number of hundredths
(the rendering of the spec-side rounded value, for comparison with the
code-side format). -/
def render2 (x : Rat) : String :=
  if (100 * x).den = 1 then centsString (100 * x).num else ""

/-- Whether a character list contains a complete token: an occurrence of two
opening braces with two closing braces somewhere after them.  A template
none of whose lines satisfies this contains no token of any key. -/
def startsToken : List Char → Bool
  | '{' :: '{' :: rest => containsSub ['}', '}'] rest
  | _ => false

/-- `startsToken` at some position of the list. -/
def hasCompleteToken : List Char → Bool
  | [] => false
  | c :: cs => startsToken (c :: cs) || hasCompleteToken cs

/-! ## Lemmas -/

theorem dropWhile_eq_self_of_none (p : Char → Bool) (l : List Char)
    (h : ∀ c ∈ l, p c = false) : l.dropWhile p = l := by
  cases l with
  | nil => rfl
  | cons c cs => simp [List.dropWhile_cons, h c (by simp)]

theorem isDigit_not_ws (c : Char) (h : c.isDigit = true) : c.isWhitespace = false := by
  have h1 : c ≠ ' ' := by rintro rfl; exact absurd h (by decide)
  have h2 : c ≠ '\t' := by rintro rfl; exact absurd h (by decide)
  have h3 : c ≠ '\r' := by rintro rfl; exact absurd h (by decide)
  have h4 : c ≠ '\n' := by rintro rfl; exact absurd h (by decide)
  simp [Char.isWhitespace, h1, h2, h3, h4]

theorem pyStrip_of_digits (l : List Char) (h : ∀ c ∈ l, c.isDigit = true) :
    pyStrip l = l := by
  unfold pyStrip
  rw [dropWhile_eq_self_of_none _ _ (fun c hc => isDigit_not_ws c (h c hc)),
    dropWhile_eq_self_of_none _ _
      (fun c hc => isDigit_not_ws c (h c (List.mem_reverse.mp hc))),
    List.reverse_reverse]

theorem zfill_of_digits (l : List Char) (w : Nat) (hl : l.length < w)
    (h : ∀ c ∈ l, c.isDigit = true) :
    zfill l w = List.replicate (w - l.length) '0' ++ l := by
  unfold zfill
  rw [if_neg (by omega)]
  cases l with
  | nil => simp
  | cons c cs =>
    show (if c = '+' ∨ c = '-' then c :: (List.replicate (w - (c :: cs).length) '0' ++ cs)
        else List.replicate (w - (c :: cs).length) '0' ++ (c :: cs))
      = List.replicate (w - (c :: cs).length) '0' ++ (c :: cs)
    rw [if_neg]
    rintro (rfl | rfl)
    · exact absurd (h '+' (by simp)) (by decide)
    · exact absurd (h '-' (by simp)) (by decide)

/-! ## Claim C1: UPC barcode normalization -/

/-- C1 counterexample: on the 13-character input `"123456789012 "` (twelve
digits and a trailing space) the claim's long-input branch demands the last
12 characters of the input, `"23456789012 "`, but `generate_upc_barcode`
strips the input first and passes the 12 digits through unchanged. -/
theorem c1_upc_normalization_counterexample :
    12 < "123456789012 ".data.length
    ∧ normalizeUpc "123456789012 " = "123456789012"
    ∧ String.mk ("123456789012 ".data.drop ("123456789012 ".data.length - 12))
      = "23456789012 "
    ∧ normalizeUpc "123456789012 "
      ≠ String.mk ("123456789012 ".data.drop ("123456789012 ".data.length - 12)) := by
  refine ⟨by decide, by decide, by decide, by decide⟩

/-- C1 (amended): the normalization in `generate_upc_barcode` first strips
leading and trailing whitespace, and the claimed case split holds of the
stripped input: stripped length 11 or 12 passes through unchanged (in
particular, inputs of length 11 or 12 consisting of digits are passed
through verbatim); a stripped all-digit input of length below 11 is
left-zero-padded to exactly 11 digits; a stripped input of length above 12
is truncated to its last 12 characters. -/
theorem c1_upc_normalization (s₁ s₂ s₃ s₄ : String) :
    ((pyStrip s₁.data).length = 11 ∨ (pyStrip s₁.data).length = 12 →
      normalizeUpc s₁ = String.mk (pyStrip s₁.data))
    ∧ ((s₂.data.length = 11 ∨ s₂.data.length = 12) → (∀ c ∈ s₂.data, c.isDigit = true) →
      normalizeUpc s₂ = s₂)
    ∧ ((pyStrip s₃.data).length < 11 → (∀ c ∈ pyStrip s₃.data, c.isDigit = true) →
      normalizeUpc s₃
        = String.mk (List.replicate (11 - (pyStrip s₃.data).length) '0' ++ pyStrip s₃.data)
      ∧ (normalizeUpc s₃).length = 11
      ∧ ∀ c ∈ (normalizeUpc s₃).data, c.isDigit = true)
    ∧ (12 < (pyStrip s₄.data).length →
      normalizeUpc s₄ = String.mk (((pyStrip s₄.data).reverse.take 12).reverse)
      ∧ (normalizeUpc s₄).length = 12) := by
  refine ⟨?_, ?_, ?_, ?_⟩
  · intro h
    unfold normalizeUpc normalizeUpcChars
    rcases h with h | h
    · rw [if_pos h]
    · rw [if_neg (by omega), if_pos h]
  · intro hlen hdig
    have hs : pyStrip s₂.data = s₂.data := pyStrip_of_digits _ hdig
    obtain ⟨d⟩ := s₂
    unfold normalizeUpc normalizeUpcChars
    simp only [hs] at *
    rcases hlen with h | h
    · rw [if_pos h]
    · rw [if_neg (by omega), if_pos h]
  · intro hlen hdig
    have hz : zfill (pyStrip s₃.data) 11
        = List.replicate (11 - (pyStrip s₃.data).length) '0' ++ pyStrip s₃.data :=
      zfill_of_digits _ _ hlen hdig
    have heq : normalizeUpc s₃
        = String.mk (List.replicate (11 - (pyStrip s₃.data).length) '0' ++ pyStrip s₃.data) := by
      unfold normalizeUpc normalizeUpcChars
      rw [if_neg (by omega), if_neg (by omega), if_pos hlen, hz]
    refine ⟨heq, ?_, ?_⟩
    · rw [heq]
      show (List.replicate (11 - (pyStrip s₃.data).length) '0' ++ pyStrip s₃.data).length = 11
      rw [List.length_append, List.length_replicate]
      omega
    · rw [heq]
      intro c hc
      rcases List.mem_append.mp hc with hc | hc
      · rw [List.eq_of_mem_replicate hc]; decide
      · exact hdig c hc
  · intro h
    have heq : normalizeUpc s₄
        = String.mk ((pyStrip s₄.data).drop ((pyStrip s₄.data).length - 12)) := by
      unfold normalizeUpc normalizeUpcChars
      rw [if_neg (by omega), if_neg (by omega), if_neg (by omega)]
    constructor
    · rw [heq, List.take_reverse, List.reverse_reverse]
    · rw [heq]
      show ((pyStrip s₄.data).drop ((pyStrip s₄.data).length - 12)).length = 12
      rw [List.length_drop]
      omega

/-- C1 witness: the amended theorem applied at the inputs `" 12345678901 "`
(strips to 11 digits), `"123456789012"` (12 digits, identity), `"5"`
(zero-padded to 11 digits) and `"12345678901234"` (14 digits, truncated to
the last 12). -/
theorem c1_upc_normalization_witness :
    normalizeUpc " 12345678901 " = String.mk (pyStrip " 12345678901 ".data)
    ∧ normalizeUpc "123456789012" = "123456789012"
    ∧ (normalizeUpc "5"
        = String.mk (List.replicate (11 - (pyStrip "5".data).length) '0' ++ pyStrip "5".data)
      ∧ (normalizeUpc "5").length = 11
      ∧ ∀ c ∈ (normalizeUpc "5").data, c.isDigit = true)
    ∧ (normalizeUpc "12345678901234"
        = String.mk (((pyStrip "12345678901234".data).reverse.take 12).reverse)
      ∧ (normalizeUpc "12345678901234").length = 12) :=
  ⟨(c1_upc_normalization " 12345678901 " "123456789012" "5" "12345678901234").1 (by decide),
    (c1_upc_normalization " 12345678901 " "123456789012" "5" "12345678901234").2.1
      (by decide) (by decide),
    (c1_upc_normalization " 12345678901 " "123456789012" "5" "12345678901234").2.2.1
      (by decide) (by decide),
    (c1_upc_normalization " 12345678901 " "123456789012" "5" "12345678901234").2.2.2
      (by decide)⟩

/-! ## Claim C2: barcode failure never aborts rendering -/

/-- C2: if, after token substitution, a template line contains the
`UPC_BARCODE` marker and barcode generation for the `UPC` token's value
raises, rendering does not abort: the literal text `ERR: barcode` is drawn
at the current cursor `(10, y)`, the cursor advances by the fixed line
height 20, and the remaining lines of the label are rendered as usual. -/
theorem c2_barcode_error_fallback (bcH : String → Nat)
    (values : List (String × Option String)) (st : RState) (line : List Char)
    (rest : List (List Char)) (e : String)
    (hmark : containsSub upcMarker (substLine values line) = true)
    (hfail : generate_upc_barcode (getUpcValue values) = .error e) :
    renderLines bcH values st (line :: rest)
      = renderLines bcH values
          ⟨st.y + 20, st.ops ++ [Op.drawText 10 st.y "ERR: barcode"]⟩ rest := by
  have hline : renderLine bcH values st line
      = ⟨st.y + 20, st.ops ++ [Op.drawText 10 st.y "ERR: barcode"]⟩ := by
    simp only [renderLine, hmark, hfail, if_true]
  simp only [renderLines, List.foldl_cons, hline]

/-- C2 witness: a one-token map whose UPC contains letters, on a template
line holding the barcode marker followed by one further line. -/
theorem c2_barcode_error_fallback_witness :
    renderLines (fun _ => 30) [("UPC", some "ABCDEFGHIJK")] ⟨10, []⟩
        ["\x7b\x7bUPC_BARCODE\x7d\x7d".data, "Weight".data]
      = renderLines (fun _ => 30) [("UPC", some "ABCDEFGHIJK")]
          ⟨30, [Op.drawText 10 10 "ERR: barcode"]⟩ ["Weight".data] :=
  c2_barcode_error_fallback (fun _ => 30) [("UPC", some "ABCDEFGHIJK")] ⟨10, []⟩
    "\x7b\x7bUPC_BARCODE\x7d\x7d".data ["Weight".data] "IllegalCharacterError"
    (by decide) rfl

/-! ## Claim C10: empty UPC renders the all-zero barcode -/

/-- C10: when the `UPC` token is absent, `None` or the empty string, the
barcode branch does not take the `ERR: barcode` fallback: the empty string
is zero-filled to eleven zeros, UPC-A generation succeeds with the all-zero
12-digit code (checksum 0), and the barcode is composited onto the label at
the cursor, which advances by the barcode's height plus 5; the remaining
lines are rendered as usual. -/
theorem c10_empty_upc_zero_barcode (bcH : String → Nat)
    (values : List (String × Option String)) (st : RState) (line : List Char)
    (rest : List (List Char))
    (hupc : List.lookup "UPC" values = none ∨ List.lookup "UPC" values = some none
      ∨ List.lookup "UPC" values = some (some ""))
    (hmark : containsSub upcMarker (substLine values line) = true) :
    renderLines bcH values st (line :: rest)
      = renderLines bcH values
          ⟨st.y + bcH "000000000000" + 5,
            st.ops ++ [Op.pasteBarcode 10 st.y "000000000000"]⟩ rest
    ∧ normalizeUpc "" = "00000000000"
    ∧ generate_upc_barcode "" = .ok "000000000000" := by
  have hget : getUpcValue values = "" := by
    unfold getUpcValue
    rcases hupc with h | h | h <;> rw [h]
  have hgen : generate_upc_barcode (getUpcValue values) = .ok "000000000000" := by
    rw [hget]
    rfl
  have hline : renderLine bcH values st line
      = ⟨st.y + bcH "000000000000" + 5, st.ops ++ [Op.pasteBarcode 10 st.y "000000000000"]⟩ := by
    simp only [renderLine, hmark, hgen, if_true]
  exact ⟨by simp only [renderLines, List.foldl_cons, hline], rfl, rfl⟩

/-- C10 witness: the empty token map (so the UPC token is absent) on a
template line holding the barcode marker. -/
theorem c10_empty_upc_zero_barcode_witness :
    (renderLines (fun _ => 40) [] ⟨10, []⟩ ["\x7b\x7bUPC_BARCODE\x7d\x7d".data]
      = renderLines (fun _ => 40) [] ⟨55, [Op.pasteBarcode 10 10 "000000000000"]⟩ [])
    ∧ normalizeUpc "" = "00000000000"
    ∧ generate_upc_barcode "" = .ok "000000000000" :=
  c10_empty_upc_zero_barcode (fun _ => 40) [] ⟨10, []⟩
    "\x7b\x7bUPC_BARCODE\x7d\x7d".data [] (Or.inl rfl) (by decide)

/-! ## Claim C3: rendering a token-free template and the token map -/

theorem containsSub_iff_isInfix (pat l : List Char) :
    containsSub pat l = true ↔ pat <:+: l := by
  induction l with
  | nil => simp [containsSub, List.infix_nil, List.isEmpty_iff]
  | cons c cs ih =>
    simp [containsSub, List.infix_cons_iff, ih, List.isPrefixOf_iff_prefix]

theorem hasCompleteToken_of_append (k : String) (s t : List Char) :
    hasCompleteToken (s ++ (tokenOf k ++ t)) = true := by
  induction s with
  | nil =>
    show (startsToken ('{' :: '{' :: ((k.data ++ ['}', '}']) ++ t))
      || hasCompleteToken ('{' :: ((k.data ++ ['}', '}']) ++ t))) = true
    have hcl : containsSub ['}', '}'] ((k.data ++ ['}', '}']) ++ t) = true :=
      (containsSub_iff_isInfix _ _).mpr ⟨k.data, t, by simp⟩
    rw [show startsToken ('{' :: '{' :: ((k.data ++ ['}', '}']) ++ t))
        = containsSub ['}', '}'] ((k.data ++ ['}', '}']) ++ t) from rfl, hcl]
    rfl
  | cons c s ih =>
    show (startsToken _ || hasCompleteToken (s ++ (tokenOf k ++ t))) = true
    rw [ih, Bool.or_true]

theorem containsSub_token_of_tokenFree (k : String) (l : List Char)
    (h : hasCompleteToken l = false) : containsSub (tokenOf k) l = false := by
  rcases hb : containsSub (tokenOf k) l with _ | _
  · rfl
  · exfalso
    obtain ⟨s, t, hst⟩ := (containsSub_iff_isInfix _ _).mp hb
    rw [← hst, List.append_assoc] at h
    rw [hasCompleteToken_of_append k s t] at h
    exact Bool.noConfusion h

theorem substLine_tokenFree (values : List (String × Option String)) (l : List Char)
    (h : hasCompleteToken l = false) : substLine values l = l := by
  unfold substLine
  induction values with
  | nil => rfl
  | cons kv vs ih =>
    rw [List.foldl_cons, containsSub_token_of_tokenFree kv.1 l h]
    simpa using ih

theorem renderLine_tokenFree (bcH : String → Nat) (values : List (String × Option String))
    (st : RState) (l : List Char) (h : hasCompleteToken l = false) :
    renderLine bcH values st l
      = ⟨st.y + 18, st.ops ++ [Op.drawText 100 st.y (String.mk l)]⟩ := by
  have hm : containsSub upcMarker l = false := containsSub_token_of_tokenFree "UPC_BARCODE" l h
  simp only [renderLine, substLine_tokenFree values l h, hm, Bool.false_eq_true, if_false]

/-- C3 counterexample: for the token-free template `HELLO`, a map carrying a
`LOGO_PATH` that names an existing image file renders a different image than
the empty map — rendering is not independent of the supplied token map. -/
theorem c3_token_map_independence_counterexample :
    render_label_as_image ⟨fun p => p == "logo.png", fun _ => true⟩ (fun _ => 30) "HELLO"
        [("LOGO_PATH", some "logo.png")]
      ≠ render_label_as_image ⟨fun p => p == "logo.png", fun _ => true⟩ (fun _ => 30) "HELLO"
        [] := by
  decide

/-- C3 (amended): for a template none of whose lines contains a complete
token, rendering depends on the token map only through its `LOGO_PATH`
entry: any two maps whose `LOGO_PATH` lookups agree render the same
image. -/
theorem c3_render_independent_of_token_map (fs : Fs) (bcH : String → Nat)
    (tpl : String) (v₁ v₂ : List (String × Option String))
    (htok : ∀ l ∈ splitNl tpl.data, hasCompleteToken l = false)
    (hlogo : List.lookup "LOGO_PATH" v₁ = List.lookup "LOGO_PATH" v₂) :
    render_label_as_image fs bcH tpl v₁ = render_label_as_image fs bcH tpl v₂ := by
  unfold render_label_as_image
  have hinit : logoOps fs v₁ = logoOps fs v₂ := by
    unfold logoOps
    rw [hlogo]
  rw [hinit]
  suffices h : ∀ (ls : List (List Char)) (st : RState),
      (∀ l ∈ ls, hasCompleteToken l = false) →
      renderLines bcH v₁ st ls = renderLines bcH v₂ st ls by
    rw [h _ _ htok]
  intro ls
  induction ls with
  | nil => intro st _; rfl
  | cons l ls ih =>
    intro st hl
    have h1 := renderLine_tokenFree bcH v₁ st l (hl l (by simp))
    have h2 := renderLine_tokenFree bcH v₂ st l (hl l (by simp))
    simp only [renderLines, List.foldl_cons] at *
    rw [h1, h2]
    exact ih _ (fun x hx => hl x (List.mem_cons_of_mem l hx))

/-- C3 witness: two maps with different entries but no `LOGO_PATH`, on the
token-free two-line template `HELLO`, `WORLD`. -/
theorem c3_render_independent_of_token_map_witness :
    render_label_as_image ⟨fun _ => false, fun _ => false⟩ (fun _ => 30) "HELLO\nWORLD"
        [("UPC", some "1")]
      = render_label_as_image ⟨fun _ => false, fun _ => false⟩ (fun _ => 30) "HELLO\nWORLD"
        [("WEIGHT", some "2")] :=
  c3_render_independent_of_token_map ⟨fun _ => false, fun _ => false⟩ (fun _ => 30)
    "HELLO\nWORLD" [("UPC", some "1")] [("WEIGHT", some "2")] (by decide) rfl

/-! ## Claim C4: serial handle lifetime in the scale read -/

/-- C4 counterexample: with a successful open and a raising `readline`, the
serial handle is still open when `read_weight` returns — the body has no
finally clause, so the `close` on the success path is skipped and the
handle outlives the read. -/
theorem c4_serial_close_counterexample :
    (read_weight ⟨Except.ok (), Except.error "device disconnected"⟩).2 = true := rfl

/-- C4 (amended): the serial connection opened by `read_weight` is closed
before the call returns in every case except one: when `readline` itself
raises after a successful open, `read_weight` returns the error result with
the serial handle still open.  The handle is open at return exactly when
the open succeeded and the read raised. -/
theorem c4_serial_close_on_return (dev : SerialBehavior) :
    (read_weight dev).2 = true
      ↔ dev.openResult = .ok () ∧ ∃ e, dev.readResult = .error e := by
  obtain ⟨o, r⟩ := dev
  cases o with
  | error e => simp [read_weight]
  | ok u =>
    cases u
    cases r with
    | error e => simp [read_weight]
    | ok raw => by_cases h : raw.isEmpty <;> simp [read_weight, h]

/-- C4 witness: the amended theorem applied to a read that times out with an
exception after a successful open. -/
theorem c4_serial_close_on_return_witness :
    (read_weight ⟨Except.ok (), Except.error "read timed out"⟩).2 = true :=
  (c4_serial_close_on_return ⟨Except.ok (), Except.error "read timed out"⟩).mpr
    ⟨rfl, "read timed out", rfl⟩

/-! ## Claim C6: open failure signalling -/

/-- C6 counterexample: when the port cannot be opened, `read_weight` catches
the exception and returns `(None, str(e))` as an ordinary value; no
exception — in particular no `ConnectionError` — is signalled to the
caller. -/
theorem c6_open_failure_counterexample :
    (read_weight ⟨Except.error "could not open port COM2", Except.ok ""⟩).1
      = .ret (none, "could not open port COM2")
    ∧ (read_weight ⟨Except.error "could not open port COM2", Except.ok ""⟩).1
      ≠ .raised "ConnectionError" :=
  ⟨rfl, by decide⟩

/-- C6 (amended): when the serial port cannot be opened, `read_weight`
returns normally with no numeric value and the exception's message as the
diagnostic text — `(None, str(e))` — rather than raising `ConnectionError`
or any other exception; the handle is not open at return. -/
theorem c6_open_failure_returns_error_value (dev : SerialBehavior) (e : String)
    (hopen : dev.openResult = .error e) :
    read_weight dev = (.ret (none, e), false) := by
  obtain ⟨o, r⟩ := dev
  cases hopen
  rfl

/-- C6 witness: the amended theorem applied to a device whose open raises. -/
theorem c6_open_failure_returns_error_value_witness :
    read_weight ⟨Except.error "could not open port COM2", Except.ok ""⟩
      = (.ret (none, "could not open port COM2"), false) :=
  c6_open_failure_returns_error_value
    ⟨Except.error "could not open port COM2", Except.ok ""⟩ "could not open port COM2" rfl

/-! ## Claim C7: net weight -/

/-- C7: the net weight the orchestrator computes from a gross reading is
`max 0 (gross - tare)` — in particular it is never negative — where the
tare resolves to 0 when no product is selected and when the selected code is
missing from the database. -/
theorem c7_net_weight_never_negative (gross : Rat) (sel : Option String)
    (db : String → Option Product) (code : String) :
    App_read_weight_net gross sel db = max 0 (gross - resolveTare sel db)
    ∧ 0 ≤ App_read_weight_net gross sel db
    ∧ resolveTare none db = 0
    ∧ resolveTare (some code) (fun _ => none) = 0 := by
  have hmax : App_read_weight_net gross sel db = max 0 (gross - resolveTare sel db) := by
    unfold App_read_weight_net
    rcases lt_or_le (gross - resolveTare sel db) 0 with h | h
    · rw [if_pos h, max_eq_left h.le]
    · rw [if_neg (not_lt.mpr h), max_eq_right h]
  refine ⟨hmax, ?_, rfl, rfl⟩
  rw [hmax]
  exact le_max_left 0 _

/-! ## Claim C9: printer transports return a flag and a message -/

/-- C9: each printer transport returns a pair of a boolean success flag and
a human-readable message and never lets an exception escape: every
exception of the try body — an open/connect failure (unreachable port or
host) as well as a write/send failure — is caught and returned as
`(False, str(e))`, and success returns `(True, fixed message)`. -/
theorem c9_transport_flag_and_message (e : String) (w : Except String Unit)
    (r : Except String Unit) :
    send_to_printer_serial ⟨.error e, w⟩ = (false, e)
    ∧ send_to_printer_serial ⟨.ok (), .error e⟩ = (false, e)
    ∧ send_to_printer_serial ⟨.ok (), .ok ()⟩ = (true, "Sent to serial printer")
    ∧ send_to_printer_ip ⟨.error e, r⟩ = (false, e)
    ∧ send_to_printer_ip ⟨.ok (), .error e⟩ = (false, e)
    ∧ send_to_printer_ip ⟨.ok (), .ok ()⟩ = (true, "Sent to network printer")
    ∧ (∀ dev : PrinterSerialBehavior, ∃ ok msg, send_to_printer_serial dev = (ok, msg))
    ∧ (∀ dev : SocketBehavior, ∃ ok msg, send_to_printer_ip dev = (ok, msg)) := by
  refine ⟨rfl, rfl, rfl, rfl, rfl, rfl, ?_, ?_⟩
  · intro dev
    exact ⟨(send_to_printer_serial dev).1, (send_to_printer_serial dev).2, rfl⟩
  · intro dev
    exact ⟨(send_to_printer_ip dev).1, (send_to_printer_ip dev).2, rfl⟩

/-! ## Claim C5: numeric extraction from the scale text -/

theorem drop_takeWhile_length (p : Char → Bool) (l : List Char) :
    l.drop (l.takeWhile p).length = l.dropWhile p := by
  induction l with
  | nil => rfl
  | cons c cs ih =>
    cases hp : p c <;> simp [List.takeWhile_cons, List.dropWhile_cons, hp, ih]

theorem takeWhile_isDigit_nil (l : List Char) (h : ∀ c ∈ l, c.isDigit = false) :
    l.takeWhile Char.isDigit = [] := by
  cases l with
  | nil => rfl
  | cons c cs => simp [List.takeWhile_cons, h c (by simp)]

theorem matchUnsignedDec_none (l : List Char) (h : ∀ c ∈ l, c.isDigit = false) :
    matchUnsignedDec l = none := by
  unfold matchUnsignedDec
  rw [takeWhile_isDigit_nil l h]
  rfl

theorem matchUInt_none (l : List Char) (h : ∀ c ∈ l, c.isDigit = false) :
    matchUInt l = none := by
  unfold matchUInt
  rw [takeWhile_isDigit_nil l h]
  rfl

theorem matchSignedDec_none (l : List Char) (h : ∀ c ∈ l, c.isDigit = false) :
    matchSignedDec l = none := by
  unfold matchSignedDec
  cases l with
  | nil => rfl
  | cons c cs =>
    show (if c = '-' ∨ c = '+' then Option.map (fun x => c :: x) (matchUnsignedDec cs)
        else matchUnsignedDec (c :: cs)) = none
    by_cases hs : c = '-' ∨ c = '+'
    · rw [if_pos hs, matchUnsignedDec_none cs (fun x hx => h x (List.mem_cons_of_mem c hx))]
      rfl
    · rw [if_neg hs]
      exact matchUnsignedDec_none _ h

theorem matchAt_none_of_no_digit (l : List Char) (h : ∀ c ∈ l, c.isDigit = false) :
    matchAt l = none := by
  unfold matchAt
  rw [matchSignedDec_none l h]
  exact matchUInt_none l h

theorem matchAt_isSome_of_digit (c : Char) (cs : List Char) (hd : c.isDigit = true) :
    ∃ m, matchAt (c :: cs) = some m := by
  unfold matchAt
  rcases hs : matchSignedDec (c :: cs) with _ | m'
  · refine ⟨c :: cs.takeWhile Char.isDigit, ?_⟩
    simp [matchUInt, List.takeWhile_cons, hd]
  · exact ⟨m', rfl⟩

theorem reSearch_eq_none_iff (l : List Char) :
    reSearch l = none ↔ ∀ c ∈ l, c.isDigit = false := by
  induction l with
  | nil => simp [reSearch]
  | cons c cs ih =>
    constructor
    · intro h
      have hm : matchAt (c :: cs) = none ∧ reSearch cs = none := by
        unfold reSearch at h
        rcases hma : matchAt (c :: cs) with _ | m <;> rw [hma] at h
        · exact ⟨rfl, h⟩
        · exact Option.noConfusion h
      intro x hx
      rcases List.mem_cons.mp hx with rfl | hx
      · rcases hdig : x.isDigit with _ | _
        · rfl
        · obtain ⟨m, hm'⟩ := matchAt_isSome_of_digit x cs hdig
          rw [hm'] at hm
          exact Option.noConfusion hm.1
      · exact ih.mp hm.2 x hx
    · intro h
      have h1 : matchAt (c :: cs) = none :=
        matchAt_none_of_no_digit _ h
      unfold reSearch
      rw [h1]
      exact ih.mpr (fun x hx => h x (List.mem_cons_of_mem c hx))

theorem matchUnsignedDec_prefix (l m : List Char) (h : matchUnsignedDec l = some m) :
    ∃ rest, l = m ++ rest := by
  unfold matchUnsignedDec at h
  by_cases h1 : (l.takeWhile Char.isDigit).isEmpty
  · simp [h1] at h
  · rw [if_neg h1] at h
    split at h
    next rest2 heq =>
      by_cases h2 : (rest2.takeWhile Char.isDigit).isEmpty
      · simp [h2] at h
      · rw [if_neg h2] at h
        obtain rfl : l.takeWhile Char.isDigit ++ '.' :: rest2.takeWhile Char.isDigit = m :=
          Option.some.inj h
        refine ⟨rest2.dropWhile Char.isDigit, ?_⟩
        calc l = l.takeWhile Char.isDigit ++ l.dropWhile Char.isDigit :=
              (List.takeWhile_append_dropWhile _ _).symm
          _ = l.takeWhile Char.isDigit ++ ('.' :: rest2) := by
              rw [← drop_takeWhile_length Char.isDigit l, heq]
          _ = l.takeWhile Char.isDigit
              ++ ('.' :: (rest2.takeWhile Char.isDigit ++ rest2.dropWhile Char.isDigit)) := by
              rw [List.takeWhile_append_dropWhile]
          _ = (l.takeWhile Char.isDigit ++ '.' :: rest2.takeWhile Char.isDigit)
              ++ rest2.dropWhile Char.isDigit := by simp
    next => exact Option.noConfusion h

theorem matchUInt_prefix (l m : List Char) (h : matchUInt l = some m) :
    ∃ rest, l = m ++ rest := by
  unfold matchUInt at h
  by_cases h1 : (l.takeWhile Char.isDigit).isEmpty
  · simp [h1] at h
  · rw [if_neg h1] at h
    obtain rfl := Option.some.inj h
    exact ⟨l.dropWhile Char.isDigit, (List.takeWhile_append_dropWhile _ _).symm⟩

theorem matchSignedDec_prefix (l m : List Char) (h : matchSignedDec l = some m) :
    ∃ rest, l = m ++ rest := by
  unfold matchSignedDec at h
  cases l with
  | nil => exact Option.noConfusion h
  | cons c cs =>
    rw [show (match c :: cs with
        | c :: cs =>
          if c = '-' ∨ c = '+' then Option.map (fun x => c :: x) (matchUnsignedDec cs)
          else matchUnsignedDec (c :: cs)
        | [] => none)
        = (if c = '-' ∨ c = '+' then Option.map (fun x => c :: x) (matchUnsignedDec cs)
          else matchUnsignedDec (c :: cs)) from rfl] at h
    by_cases hs : c = '-' ∨ c = '+'
    · rw [if_pos hs] at h
      rcases hm : matchUnsignedDec cs with _ | m' <;> rw [hm] at h
      · exact Option.noConfusion h
      · obtain rfl : c :: m' = m := by simpa using h
        obtain ⟨rest, hrest⟩ := matchUnsignedDec_prefix cs m' hm
        exact ⟨rest, by rw [List.cons_append, ← hrest]⟩
    · rw [if_neg hs] at h
      exact matchUnsignedDec_prefix _ _ h

theorem matchAt_prefix (l m : List Char) (h : matchAt l = some m) :
    ∃ rest, l = m ++ rest := by
  unfold matchAt at h
  rcases hs : matchSignedDec l with _ | m' <;> rw [hs] at h
  · exact matchUInt_prefix _ _ h
  · obtain rfl := Option.some.inj h
    exact matchSignedDec_prefix _ _ hs

theorem reSearch_spec (l tok : List Char) (h : reSearch l = some tok) :
    ∃ pre post, l = pre ++ tok ++ post ∧ matchAt (tok ++ post) = some tok
      ∧ ∀ i < pre.length, matchAt (l.drop i) = none := by
  induction l with
  | nil => exact Option.noConfusion h
  | cons c cs ih =>
    unfold reSearch at h
    rcases hm : matchAt (c :: cs) with _ | m <;> rw [hm] at h
    · obtain ⟨pre, post, hsplit, hmatch, hleft⟩ := ih h
      refine ⟨c :: pre, post, by simp [hsplit], hmatch, ?_⟩
      intro i hi
      cases i with
      | zero => exact hm
      | succ j =>
        show matchAt (cs.drop j) = none
        exact hleft j (by simpa using hi)
    · obtain rfl := Option.some.inj h
      obtain ⟨rest, hrest⟩ := matchAt_prefix _ _ hm
      refine ⟨[], rest, by simpa using hrest, ?_, ?_⟩
      · rw [← hrest]
        exact hm
      · intro i hi
        exact absurd hi (Nat.not_lt_zero i)

/-- C5 counterexample: for the decoded text `-5` — whose first numeric token
is, per the claim, the signed integer `-5` — the code extracts `5`: the
regex's integer alternative carries no optional sign (only the decimal
alternative does), so the match starts after the minus sign. -/
theorem c5_signed_integer_counterexample :
    parseScaleText "-5".data = (some 5, "-5".data)
    ∧ parseScaleText "-5".data ≠ (some (-5), "-5".data)
    ∧ read_weight ⟨Except.ok (), Except.ok "-5"⟩ = (.ret (some 5, "-5"), false) :=
  ⟨by decide, by decide, by decide⟩

/-- C5 (amended): the scale reader extracts the first substring matching an
optionally signed decimal (sign, digits, dot, digits) or an unsigned
integer; a sign before an integer with no decimal point is not part of the
match, so for the text `-5` the extracted value is `5`.  Precisely: the
extraction yields no numeric value exactly when the text has no digit, in
which case the raw text is reported as diagnostic output; the text is
always returned alongside the value; and a successful search splits the
text as `pre ++ tok ++ post` where the pattern matches `tok` at that
position and matches at no earlier position. -/
theorem c5_scale_numeric_extraction (t u : List Char) :
    ((parseScaleText t).1 = none ↔ ∀ c ∈ t, c.isDigit = false)
    ∧ (parseScaleText t).2 = t
    ∧ (∀ tok, reSearch u = some tok →
        ∃ pre post, u = pre ++ tok ++ post ∧ matchAt (tok ++ post) = some tok
          ∧ ∀ i < pre.length, matchAt (u.drop i) = none)
    ∧ parseScaleText "-5".data = (some 5, "-5".data) := by
  refine ⟨?_, ?_, ?_, by decide⟩
  · rcases hr : reSearch t with _ | tok
    · constructor
      · intro _
        exact (reSearch_eq_none_iff t).mp hr
      · intro _
        show (parseScaleText t).1 = none
        simp [parseScaleText, hr]
    · constructor
      · intro hx
        have hsome : (parseScaleText t).1 = some (pyFloat tok) := by
          simp [parseScaleText, hr]
        rw [hsome] at hx
        exact Option.noConfusion hx
      · intro hall
        have hnone := (reSearch_eq_none_iff t).mpr hall
        rw [hnone] at hr
        exact Option.noConfusion hr
  · rcases hr : reSearch t with _ | tok <;> simp [parseScaleText, hr]
  · intro tok h
    exact reSearch_spec u tok h

/-- C5 witness: the amended theorem applied to the text `x-5y`, locating the
unsigned token `5` after the non-matching prefix `x-`. -/
theorem c5_scale_numeric_extraction_witness :
    ∃ pre post, "x-5y".data = pre ++ "5".data ++ post
      ∧ matchAt ("5".data ++ post) = some "5".data
      ∧ ∀ i < pre.length, matchAt ("x-5y".data.drop i) = none :=
  (c5_scale_numeric_extraction "x-5y".data "x-5y".data).2.2.1 "5".data (by decide)

/-! ## Claim C8: the PRICE token and rounding -/

theorem roundHalfEven_close (q : Rat) : |(roundHalfEven q : Rat) - q| ≤ 1 / 2 := by
  have h0 : (0 : Rat) ≤ q - ⌊q⌋ := sub_nonneg.mpr (Int.floor_le q)
  have h1 : q - ⌊q⌋ < 1 := by
    have := Int.lt_floor_add_one q
    linarith
  simp only [roundHalfEven]
  split_ifs with ha hb hc <;> rw [abs_le] <;> push_cast <;> constructor <;> linarith

/-- C8: the total price the print action computes and places in the PRICE
token is the weight–price product rounded to two decimal places: the
`.2f`-formatted text of `weight * price_per_lb` is exactly the two-decimal
rendering of `round(weight * price_per_lb, 2)` (correct rounding to
hundredths, ties to even), and that rounded value differs from the exact
product by at most half a hundredth. -/
theorem c8_price_token_rounding (w p : Rat) :
    formatF2 (totalPrice w p) = render2 (round2_spec (totalPrice w p))
    ∧ |round2_spec (totalPrice w p) - totalPrice w p| ≤ 1 / 200 := by
  have key : (100 : Rat) * round2_spec (totalPrice w p)
      = (roundHalfEven (100 * totalPrice w p) : Rat) := by
    unfold round2_spec
    field_simp
  constructor
  · unfold formatF2 render2
    rw [key, Rat.den_intCast, if_pos rfl, Rat.num_intCast]
  · have hclose := roundHalfEven_close (100 * totalPrice w p)
    have heq : round2_spec (totalPrice w p) - totalPrice w p
        = ((roundHalfEven (100 * totalPrice w p) : Rat) - 100 * totalPrice w p) / 100 := by
      unfold round2_spec
      ring
    have habs : |(100 : Rat)| = 100 := abs_of_pos (by norm_num)
    rw [heq, abs_div, habs, div_le_iff₀ (by norm_num : (0 : Rat) < 100)]
    linarith

end TurkeyLabeler
